import Mathlib

/-!
Shallow embedding of the neighbornet-backend social messaging core:
group membership lifecycle (src/routes/groups.routes.js), direct and group
messages (src/routes/direct.routes.js, src/routes/groups.routes.js),
the follow / trusted-contact linker (src/routes/follows.routes.js) and the
notification creation paths (src/unnamed/part_001,
src/routes/notifications.routes.js).  SQL tables are lists of rows,
UPDATE statements are maps over those lists, COUNT queries are countP,
and SELECT ... LIMIT 1 style lookups are find?.
-/

namespace NeighborNet

/-- GroupMembership role enum: admin | moderator | member. -/
inductive Role
  | admin | moderator | member
deriving DecidableEq, Repr

/-- GroupMembership status enum: active | pending | invited | removed | rejected. -/
inductive MStatus
  | active | pending | invited | removed | rejected
deriving DecidableEq, Repr

/-- One GroupMemberships row. -/
structure Membership where
  group_id : Nat
  user_id : Nat
  role : Role
  status : MStatus
  invite_id : Option Nat := none
  invited_by : Option Nat := none
deriving DecidableEq, Repr

/-- One UserGroups row (only the fields the claims touch). -/
structure Group where
  group_id : Nat
  member_count : Nat
deriving DecidableEq, Repr

/-- The membership-relevant database state. -/
structure GState where
  groups : List Group
  memberships : List Membership
  users : List Nat
deriving DecidableEq, Repr

/-- Errors returned by the group routes (status code plus message family). -/
inductive GErr
  | validation | forbidden | notFound | alreadyMember | lastAdminGuard
deriving DecidableEq, Repr

/-- Row predicate for SELECT ... WHERE group_id = g AND user_id = u AND status = 'active'. -/
def isActiveIn (g u : Nat) (m : Membership) : Bool :=
  decide (m.group_id = g ∧ m.user_id = u ∧ m.status = MStatus.active)

/-- First active membership row of user u in group g (the routes read row [0]). -/
def activeMemL (l : List Membership) (g u : Nat) : Option Membership :=
  l.find? (isActiveIn g u)

/-- COUNT(*) of rows with role 'admin' and status 'active' in group g. -/
def adminCount (l : List Membership) (g : Nat) : Nat :=
  l.countP fun m => decide (m.group_id = g ∧ m.role = Role.admin ∧ m.status = MStatus.active)

/-- COUNT(*) of rows with status 'active' in group g (the member_count recompute query). -/
def activeCount (l : List Membership) (g : Nat) : Nat :=
  l.countP fun m => decide (m.group_id = g ∧ m.status = MStatus.active)

/-- UPDATE GroupMemberships SET status = st WHERE group_id = g AND user_id = u. -/
def setStatus (g u : Nat) (st : MStatus) (l : List Membership) : List Membership :=
  l.map fun m => if m.group_id = g ∧ m.user_id = u then { m with status := st } else m

/-- UPDATE GroupMemberships SET role = r WHERE group_id = g AND user_id = u. -/
def setRole (g u : Nat) (r : Role) (l : List Membership) : List Membership :=
  l.map fun m => if m.group_id = g ∧ m.user_id = u then { m with role := r } else m

/-- UPDATE UserGroups SET member_count = (SELECT COUNT(*) ... status='active') WHERE group_id = g. -/
def recount (g : Nat) (s : GState) : GState :=
  { s with groups := s.groups.map fun gr =>
      if gr.group_id = g then { gr with member_count := activeCount s.memberships g } else gr }

/-- member_count column of group g, when the group row exists. -/
def groupCount (s : GState) (g : Nat) : Option Nat :=
  (s.groups.find? fun gr => decide (gr.group_id = g)).map Group.member_count

/-- Does the caller hold an active membership with role 'admin'? -/
def isActiveAdmin (l : List Membership) (g u : Nat) : Bool :=
  match activeMemL l g u with
  | some m => decide (m.role = Role.admin)
  | none => false

/-- Does the caller hold an active membership with role 'admin' or 'moderator'? -/
def isActiveAdminOrMod (l : List Membership) (g u : Nat) : Bool :=
  match activeMemL l g u with
  | some m => decide (m.role = Role.admin ∨ m.role = Role.moderator)
  | none => false

/-- POST /api/groups/create (groups.routes.js lines 12-47).  gid is the fresh
auto-increment group id assigned by the store. -/
def createGroup (creator gid : Nat) (s : GState) : GState :=
  { s with
    groups := s.groups ++ [{ group_id := gid, member_count := 1 }],
    memberships := s.memberships ++
      [{ group_id := gid, user_id := creator, role := Role.admin, status := MStatus.active }] }

/-- POST /api/groups/:groupId/members (groups.routes.js lines 350-425). -/
def addMember (g actor target : Nat) (s : GState) : Except GErr GState :=
  if ¬ isActiveAdminOrMod s.memberships g actor then Except.error GErr.forbidden
  else if ¬ target ∈ s.users then Except.error GErr.notFound
  else
    match s.memberships.find? (fun m => decide (m.group_id = g ∧ m.user_id = target)) with
    | some e =>
        if e.status = MStatus.active then Except.error GErr.alreadyMember
        else Except.ok (recount g
          { s with memberships := setStatus g target MStatus.active s.memberships })
    | none =>
        Except.ok (recount g { s with memberships := s.memberships ++
          [{ group_id := g, user_id := target, role := Role.member, status := MStatus.active }] })

/-- POST /api/groups/:groupId/invites/:inviteId/accept (groups.routes.js lines 679-714). -/
def acceptInvite (g inviteId uid : Nat) (s : GState) : Except GErr GState :=
  match s.memberships.find?
      (fun m => decide (m.group_id = g ∧ m.user_id = uid ∧ m.invite_id = some inviteId)) with
  | some row =>
      if row.status = MStatus.invited then
        Except.ok (recount g { s with memberships := s.memberships.map fun m =>
          if m.group_id = g ∧ m.user_id = uid then
            { m with status := MStatus.active, invite_id := none, invited_by := none }
          else m })
      else Except.error GErr.notFound
  | none => Except.error GErr.notFound

/-- POST /api/groups/:groupId/invites/:inviteId/reject (groups.routes.js lines 720-738);
note: no member_count recompute (the invited row was not active). -/
def rejectInvite (g inviteId uid : Nat) (s : GState) : Except GErr GState :=
  match s.memberships.find?
      (fun m => decide (m.group_id = g ∧ m.user_id = uid ∧ m.invite_id = some inviteId)) with
  | some row =>
      if row.status = MStatus.invited then
        Except.ok { s with memberships := s.memberships.map fun m =>
          if m.group_id = g ∧ m.user_id = uid then
            { m with status := MStatus.rejected, invite_id := none }
          else m }
      else Except.error GErr.notFound
  | none => Except.error GErr.notFound

/-- DELETE /api/groups/:groupId/members/:memberId (groups.routes.js lines 744-786):
admins may remove anyone, anyone may remove themself; no last-admin check. -/
def removeMember (g actor memberId : Nat) (s : GState) : Except GErr GState :=
  if isActiveAdmin s.memberships g actor = true ∨ actor = memberId then
    Except.ok (recount g { s with memberships := setStatus g memberId MStatus.removed s.memberships })
  else Except.error GErr.forbidden

/-- PATCH /api/groups/:groupId/members/:memberId/role (groups.routes.js lines 792-827):
only an active admin may change roles; no last-admin check and no recount. -/
def updateRole (g actor memberId : Nat) (r : Role) (s : GState) : Except GErr GState :=
  if isActiveAdmin s.memberships g actor then
    Except.ok { s with memberships := setRole g memberId r s.memberships }
  else Except.error GErr.forbidden

/-- POST /api/groups/:groupId/leave (groups.routes.js lines 947-993):
guarded by the sole-active-admin check. -/
def leaveGroup (g uid : Nat) (s : GState) : Except GErr GState :=
  let ac := adminCount s.memberships g
  match activeMemL s.memberships g uid with
  | some m =>
      if m.role = Role.admin ∧ ac = 1 then Except.error GErr.lastAdminGuard
      else Except.ok (recount g
        { s with memberships := setStatus g uid MStatus.removed s.memberships })
  | none =>
      Except.ok (recount g
        { s with memberships := setStatus g uid MStatus.removed s.memberships })

/-- The last-admin invariant of the spec: group g has an active admin
membership, or no active memberships at all. -/
def adminInv (s : GState) (g : Nat) : Prop :=
  (∃ m ∈ s.memberships, m.group_id = g ∧ m.status = MStatus.active ∧ m.role = Role.admin)
  ∨ (∀ m ∈ s.memberships, m.group_id = g → m.status ≠ MStatus.active)

instance (s : GState) (g : Nat) : Decidable (adminInv s g) := by
  unfold adminInv; infer_instance

/-- Database well-formedness: the (group_id, user_id) pair is a unique key. -/
def WFmem (l : List Membership) : Prop :=
  l.Pairwise fun x y => ¬ (x.group_id = y.group_id ∧ x.user_id = y.user_id)

instance (l : List Membership) : Decidable (WFmem l) := by
  unfold WFmem; infer_instance

/-! ### Messaging service -/

/-- One DirectMessages row (fields the claims touch). -/
structure DMessage where
  message_id : Nat
  sender_id : Nat
  receiver_id : Nat
  content : String
  media_url : Option String := none
  created_at : Nat
  is_read : Bool := false
  is_edited : Bool := false
deriving DecidableEq, Repr

/-- One ChatMessages (group message) row. -/
structure CMessage where
  message_id : Nat
  group_id : Nat
  user_id : Nat
  content : String
  media_url : Option String := none
  created_at : Nat
  is_read : Bool := false
  is_edited : Bool := false
deriving DecidableEq, Repr

/-- Errors returned by the message routes. -/
inductive MsgErr
  | validation | notFound | mediaNotEditable | editWindowExpired | forbidden
deriving DecidableEq, Repr

/-- The 15-minute edit window in milliseconds: the JS check
(now - created_at) / 1000 / 60 > 15 is exactly now - created_at > 900000. -/
def editWindowMs : Nat := 15 * 60 * 1000

/-- The JS content guard !content || content.trim().length === 0: true exactly
when every character is whitespace (an empty string trivially so). -/
def blankContent (s : String) : Bool :=
  s.data.all fun c => decide (c = ' ' ∨ c = '\t' ∨ c = '\n' ∨ c = '\r')

/-- PATCH /api/direct/messages/:messageId (direct.routes.js lines 242-301).
now and created_at are epoch milliseconds. -/
def editDirectMessage (msgs : List DMessage) (mid actor : Nat) (content : String)
    (now : Nat) : Except MsgErr (List DMessage) :=
  if blankContent content then Except.error MsgErr.validation
  else
    match msgs.find? (fun m => decide (m.message_id = mid ∧ m.sender_id = actor)) with
    | none => Except.error MsgErr.notFound
    | some m =>
      if m.media_url.isSome then Except.error MsgErr.mediaNotEditable
      else if editWindowMs < now - m.created_at then Except.error MsgErr.editWindowExpired
      else Except.ok (msgs.map fun x =>
        if x.message_id = mid then { x with content := content, is_edited := true } else x)

/-- PATCH /api/groups/:groupId/messages/:messageId (groups.routes.js lines 833-893). -/
def editGroupMessage (msgs : List CMessage) (g mid actor : Nat) (content : String)
    (now : Nat) : Except MsgErr (List CMessage) :=
  if blankContent content then Except.error MsgErr.validation
  else
    match msgs.find?
        (fun m => decide (m.message_id = mid ∧ m.group_id = g ∧ m.user_id = actor)) with
    | none => Except.error MsgErr.notFound
    | some m =>
      if m.media_url.isSome then Except.error MsgErr.mediaNotEditable
      else if editWindowMs < now - m.created_at then Except.error MsgErr.editWindowExpired
      else Except.ok (msgs.map fun x =>
        if x.message_id = mid then { x with content := content, is_edited := true } else x)

/-- DELETE /api/direct/messages/:messageId (direct.routes.js lines 338-363).
The lookup filters on sender_id, so a message sent by someone else falls into
the same notFound branch as an absent message. -/
def deleteDirectMessage (msgs : List DMessage) (mid actor : Nat) :
    Except MsgErr (List DMessage) :=
  match msgs.find? (fun m => decide (m.message_id = mid ∧ m.sender_id = actor)) with
  | none => Except.error MsgErr.notFound
  | some _ => Except.ok (msgs.filter fun m => decide (¬ m.message_id = mid))

/-- ORDER BY created_at DESC, modelled as a stable sort on this relation. -/
def createdDesc {α : Type} (t : α → Nat) (a b : α) : Prop := t b ≤ t a

instance {α : Type} (t : α → Nat) : DecidableRel (createdDesc t) :=
  fun a b => Nat.decLe (t b) (t a)

instance {α : Type} (t : α → Nat) : IsTotal α (createdDesc t) :=
  ⟨fun a b => Nat.le_total (t b) (t a)⟩

instance {α : Type} (t : α → Nat) : IsTrans α (createdDesc t) :=
  ⟨fun _ _ _ hab hbc => Nat.le_trans hbc hab⟩

/-- The page computed by GET /api/direct/:userId/messages (direct.routes.js
lines 94-167): filter the conversation and the id cursor, order by
created_at DESC, LIMIT min(limit, 200) (default 50), then reverse for
chronological delivery.  limit = none models an absent or non-numeric
limit parameter. -/
def directMessagePage (msgs : List DMessage) (selfId otherId : Nat)
    (limit : Option Nat) (before : Option Nat) : List DMessage :=
  let cap := match limit with | none => 50 | some l => min l 200
  let rows := msgs.filter fun m =>
    (decide ((m.sender_id = selfId ∧ m.receiver_id = otherId) ∨
             (m.sender_id = otherId ∧ m.receiver_id = selfId))) &&
    (match before with | none => true | some b => decide (m.message_id < b))
  ((List.insertionSort (createdDesc DMessage.created_at) rows).take cap).reverse

/-- The page computed by GET /api/groups/:groupId/messages (groups.routes.js
lines 265-344).  Unlike the direct route, the requested limit is used as the
SQL LIMIT with no 200 cap. -/
def groupMessagePage (msgs : List CMessage) (g : Nat)
    (limit : Option Nat) (before : Option Nat) : List CMessage :=
  let cap := match limit with | none => 50 | some l => l
  let rows := msgs.filter fun m =>
    (decide (m.group_id = g)) &&
    (match before with | none => true | some b => decide (m.message_id < b))
  ((List.insertionSort (createdDesc CMessage.created_at) rows).take cap).reverse

/-- UPDATE ChatMessages SET is_read = TRUE WHERE group_id = g AND user_id != uid:
the shared side effect of GET /:groupId/messages (groups.routes.js lines
329-334) and PATCH /:groupId/messages/read (lines 1061-1066). -/
def markGroupRead (msgs : List CMessage) (g uid : Nat) : List CMessage :=
  msgs.map fun m =>
    if m.group_id = g ∧ ¬ m.user_id = uid then { m with is_read := true } else m

/-- The unread tally of GET /:groupId/unread/count (groups.routes.js lines
1150-1155): COUNT(*) WHERE group_id = g AND user_id != uid AND is_read = FALSE. -/
def groupUnread (msgs : List CMessage) (g uid : Nat) : Nat :=
  msgs.countP fun m => decide (m.group_id = g ∧ ¬ m.user_id = uid ∧ m.is_read = false)

/-- GET /api/groups/:groupId/messages: membership gate, returned page, and the
post-state of the ChatMessages table. -/
def getGroupMessages (mems : List Membership) (msgs : List CMessage) (g uid : Nat)
    (limit : Option Nat) (before : Option Nat) :
    Except GErr (List CMessage × List CMessage) :=
  if (activeMemL mems g uid).isSome then
    Except.ok (groupMessagePage msgs g limit before, markGroupRead msgs g uid)
  else Except.error GErr.forbidden

/-- PATCH /api/groups/:groupId/messages/read (groups.routes.js lines 1045-1073). -/
def markGroupMessagesRead (mems : List Membership) (msgs : List CMessage) (g uid : Nat) :
    Except GErr (List CMessage) :=
  if (activeMemL mems g uid).isSome then Except.ok (markGroupRead msgs g uid)
  else Except.error GErr.forbidden

/-- GET /api/groups/:groupId/unread/count (groups.routes.js lines 1134-1162). -/
def getGroupUnreadCount (mems : List Membership) (msgs : List CMessage) (g uid : Nat) :
    Except GErr Nat :=
  if (activeMemL mems g uid).isSome then Except.ok (groupUnread msgs g uid)
  else Except.error GErr.forbidden

/-! ### Notifications -/

/-- One Notifications row (fields the claims touch); ntype is the raw type
string, since type validation is what the claims are about. -/
structure Notification where
  user_id : Nat
  ntype : String
  title : String
  related_id : Option Nat := none
  related_type : Option String := none
deriving DecidableEq, Repr

/-- The closed type enum validated by the createNotification helper
(src/unnamed/part_001 line 52). -/
def validTypes : List String :=
  ["alert", "message", "event", "badge", "verification", "system", "group_invite", "group"]

/-- The type list validated by POST /api/notifications
(notifications.routes.js line 16): two entries shorter than the helper's. -/
def postValidTypes : List String :=
  ["alert", "message", "event", "badge", "verification", "system"]

/-- createNotification (src/unnamed/part_001 lines 41-104): an invalid type
returns null and leaves the store untouched; otherwise the row is persisted
(the live-push branch does not change the store). -/
def createNotification (store : List Notification) (n : Notification) :
    Option Notification × List Notification :=
  if n.ntype ∈ validTypes then (some n, store ++ [n]) else (none, store)

/-- POST /api/notifications (notifications.routes.js lines 7-41). -/
def postNotification (store : List Notification) (n : Notification) :
    Except GErr (List Notification) :=
  if n.ntype ∈ postValidTypes then Except.ok (store ++ [n])
  else Except.error GErr.validation

/-! ### Social graph / trust linker -/

/-- Trusted-contact status enum. -/
inductive TStatus
  | pending | accepted | blocked
deriving DecidableEq, Repr

/-- One Follows row. -/
structure Follow where
  follower_id : Nat
  followed_id : Nat
deriving DecidableEq, Repr

/-- One TrustedContacts row. -/
structure TContact where
  user_id : Nat
  trusted_user_id : Nat
  status : TStatus
deriving DecidableEq, Repr

/-- The social-graph database state. -/
structure SState where
  users : List Nat
  follows : List Follow
  contacts : List TContact
  notifs : List Notification
deriving DecidableEq, Repr

/-- Errors returned by the follow routes. -/
inductive FErr
  | selfFollow | notFound | conflict
deriving DecidableEq, Repr

/-- SELECT follow_id FROM Follows WHERE follower_id = a AND followed_id = b. -/
def followExists (l : List Follow) (a b : Nat) : Bool :=
  l.any fun f => decide (f.follower_id = a ∧ f.followed_id = b)

/-- First TrustedContacts row in direction a → b. -/
def contactRow (l : List TContact) (a b : Nat) : Option TContact :=
  l.find? fun c => decide (c.user_id = a ∧ c.trusted_user_id = b)

/-- Status of the first TrustedContacts row in direction a → b, if any. -/
def contactStatus (l : List TContact) (a b : Nat) : Option TStatus :=
  (contactRow l a b).map TContact.status

/-- UPDATE TrustedContacts SET status = 'accepted' WHERE user_id = a AND trusted_user_id = b. -/
def setContactAccepted (l : List TContact) (a b : Nat) : List TContact :=
  l.map fun c =>
    if c.user_id = a ∧ c.trusted_user_id = b then { c with status := TStatus.accepted } else c

/-- One direction of the trust-linker upsert (follows.routes.js lines 55-91):
insert an accepted row if absent, upgrade to accepted if present and not
already accepted, otherwise leave alone. -/
def upsertContact (l : List TContact) (a b : Nat) : List TContact :=
  match contactRow l a b with
  | none => l ++ [{ user_id := a, trusted_user_id := b, status := TStatus.accepted }]
  | some c => if c.status = TStatus.accepted then l else setContactAccepted l a b

/-- The generic follow notification (follows.routes.js lines 118-127). -/
def newFollowerNotif (a b : Nat) : Notification :=
  { user_id := b, ntype := "alert", title := "New Follower",
    related_id := some a, related_type := some "user" }

/-- The distinguished mutual-follow notification (follows.routes.js lines 100-108). -/
def newTrustedNotif (a b : Nat) : Notification :=
  { user_id := b, ntype := "alert", title := "New Trusted Contact",
    related_id := some a, related_type := some "user" }

/-- POST /api/follows/follow/:user_id (follows.routes.js lines 8-135),
a following b. -/
def followOp (s : SState) (a b : Nat) : Except FErr SState :=
  if a = b then Except.error FErr.selfFollow
  else if ¬ b ∈ s.users then Except.error FErr.notFound
  else if followExists s.follows a b then Except.error FErr.conflict
  else
    let follows2 := s.follows ++ [{ follower_id := a, followed_id := b }]
    if followExists follows2 b a then
      let contacts2 := upsertContact (upsertContact s.contacts a b) b a
      let notifs2 :=
        if a ∈ s.users then (createNotification s.notifs (newTrustedNotif a b)).2 else s.notifs
      Except.ok { s with follows := follows2, contacts := contacts2, notifs := notifs2 }
    else
      let notifs2 :=
        if a ∈ s.users then (createNotification s.notifs (newFollowerNotif a b)).2 else s.notifs
      Except.ok { s with follows := follows2, notifs := notifs2 }

/-- POST /api/follows/unfollow/:user_id (follows.routes.js lines 138-171):
the trusted-contact rows are deleted only when the reverse follow is gone. -/
def unfollowOp (s : SState) (a b : Nat) : Except FErr SState :=
  let remaining := s.follows.filter fun f =>
    decide (¬ (f.follower_id = a ∧ f.followed_id = b))
  if remaining.length = s.follows.length then Except.error FErr.notFound
  else if followExists remaining b a then
    Except.ok { s with follows := remaining }
  else
    let contacts2 := s.contacts.filter fun c =>
      decide (¬ ((c.user_id = a ∧ c.trusted_user_id = b) ∨
                 (c.user_id = b ∧ c.trusted_user_id = a)))
    Except.ok { s with follows := remaining, contacts := contacts2 }

/-! ### Shared list lemmas -/

/-- In a list whose key column is unique, two members with the same key are equal. -/
theorem eq_of_pairwise_key {α κ : Type} (key : α → κ) {l : List α}
    (hWF : l.Pairwise fun x y => ¬ key x = key y) {a b : α}
    (ha : a ∈ l) (hb : b ∈ l) (hk : key a = key b) : a = b := by
  induction l with
  | nil => cases ha
  | cons x t ih =>
    rcases List.pairwise_cons.mp hWF with ⟨hx, ht⟩
    rcases List.mem_cons.mp ha with rfl | ha2
    · rcases List.mem_cons.mp hb with rfl | hb2
      · rfl
      · exact absurd hk (hx b hb2)
    · rcases List.mem_cons.mp hb with rfl | hb2
      · exact absurd hk.symm (hx a ha2)
      · exact ih ht ha2 hb2

/-- find? on a unique-key list returns the member that satisfies the predicate,
when the predicate pins the key. -/
theorem find?_eq_some_of_key {α κ : Type} (key : α → κ) {l : List α}
    (hWF : l.Pairwise fun x y => ¬ key x = key y) {p : α → Bool} {k : κ}
    (hp : ∀ x, p x = true → key x = k) {m : α}
    (hm : m ∈ l) (hpm : p m = true) : l.find? p = some m := by
  have hsome : (l.find? p).isSome := List.find?_isSome.mpr ⟨m, hm, hpm⟩
  rcases Option.isSome_iff_exists.mp hsome with ⟨a, hfa⟩
  have haMem : a ∈ l := List.mem_of_find?_eq_some hfa
  have hpa : p a = true := List.find?_some hfa
  have : a = m := eq_of_pairwise_key key hWF haMem hm ((hp a hpa).trans (hp m hpm).symm)
  simpa [this] using hfa

/-- find? commutes with a map that does not change predicate membership. -/
theorem find?_map_pred {α : Type} (f : α → α) (p : α → Bool)
    (hf : ∀ x, p (f x) = p x) (l : List α) :
    (l.map f).find? p = (l.find? p).map f := by
  rw [List.find?_map]
  have : (p ∘ f) = p := funext hf
  rw [this]

/-- countP is unchanged by a map that does not change predicate membership. -/
theorem countP_map_pred {α : Type} (f : α → α) (p : α → Bool)
    (hf : ∀ x, p (f x) = p x) (l : List α) :
    (l.map f).countP p = l.countP p := by
  rw [List.countP_map]
  have : (p ∘ f) = p := funext hf
  rw [this]

/-! ### Group membership lemmas -/

/-- Key preservation carries WFmem through a row-wise UPDATE. -/
theorem WFmem_map (l : List Membership) (f : Membership → Membership)
    (hf : ∀ m, (f m).group_id = m.group_id ∧ (f m).user_id = m.user_id)
    (hWF : WFmem l) : WFmem (l.map f) := by
  unfold WFmem at *
  rw [List.pairwise_map]
  refine hWF.imp ?_
  intro a b hab hc
  exact hab ⟨((hf a).1.symm.trans hc.1).trans (hf b).1,
    ((hf a).2.symm.trans hc.2).trans (hf b).2⟩

/-- The conditional row update of setStatus does not change the key columns. -/
theorem setStatus_keys (g u : Nat) (st : MStatus) (m : Membership) :
    ((if m.group_id = g ∧ m.user_id = u then { m with status := st } else m).group_id
        = m.group_id ∧
     (if m.group_id = g ∧ m.user_id = u then { m with status := st } else m).user_id
        = m.user_id) := by
  by_cases h : m.group_id = g ∧ m.user_id = u <;> simp [h]

/-- The conditional row update of setRole does not change the key columns. -/
theorem setRole_keys (g u : Nat) (r : Role) (m : Membership) :
    ((if m.group_id = g ∧ m.user_id = u then { m with role := r } else m).group_id
        = m.group_id ∧
     (if m.group_id = g ∧ m.user_id = u then { m with role := r } else m).user_id
        = m.user_id) := by
  by_cases h : m.group_id = g ∧ m.user_id = u <;> simp [h]

/-- Two distinct members both satisfying a predicate force a count of at least two. -/
theorem two_le_countP {α : Type} (p : α → Bool) (l : List α) (a b : α)
    (ha : a ∈ l) (hb : b ∈ l) (hne : a ≠ b) (hpa : p a = true) (hpb : p b = true) :
    2 ≤ l.countP p := by
  induction l with
  | nil => cases ha
  | cons x t ih =>
    rw [List.countP_cons]
    rcases List.mem_cons.mp ha with rfl | ha2
    · rcases List.mem_cons.mp hb with rfl | hb2
      · exact absurd rfl hne
      · have hpos : 0 < t.countP p := List.countP_pos_iff.mpr ⟨b, hb2, hpb⟩
        rw [if_pos hpa]
        omega
    · rcases List.mem_cons.mp hb with rfl | hb2
      · have hpos : 0 < t.countP p := List.countP_pos_iff.mpr ⟨a, ha2, hpa⟩
        rw [if_pos hpb]
        omega
      · have h2 := ih ha2 hb2
        by_cases hpx : p x = true
        · rw [if_pos hpx]; omega
        · rw [if_neg hpx]; omega

/-- When a group has at least two active admin rows, one of them belongs to a
user other than uid. -/
theorem exists_other_admin (l : List Membership) (g uid : Nat)
    (hWF : WFmem l) (h2 : 2 ≤ adminCount l g) :
    ∃ x ∈ l, x.group_id = g ∧ x.role = Role.admin ∧ x.status = MStatus.active ∧
      ¬ x.user_id = uid := by
  have hlen : 2 ≤ (l.filter fun m =>
      decide (m.group_id = g ∧ m.role = Role.admin ∧ m.status = MStatus.active)).length := by
    rw [← List.countP_eq_length_filter]
    exact h2
  rcases hfs : l.filter (fun m =>
      decide (m.group_id = g ∧ m.role = Role.admin ∧ m.status = MStatus.active)) with
    _ | ⟨x, _ | ⟨y, t⟩⟩
  · rw [hfs] at hlen; simp at hlen
  · rw [hfs] at hlen; simp at hlen
  · have hx : x ∈ l.filter (fun m =>
        decide (m.group_id = g ∧ m.role = Role.admin ∧ m.status = MStatus.active)) := by
      rw [hfs]; exact List.mem_cons_self x _
    have hy : y ∈ l.filter (fun m =>
        decide (m.group_id = g ∧ m.role = Role.admin ∧ m.status = MStatus.active)) := by
      rw [hfs]; exact List.mem_cons_of_mem x (List.mem_cons_self y t)
    have hWFp : l.Pairwise
        (fun a b => ¬ (a.group_id = b.group_id ∧ a.user_id = b.user_id)) := hWF
    have hpw : (l.filter (fun m =>
        decide (m.group_id = g ∧ m.role = Role.admin ∧ m.status = MStatus.active))).Pairwise
        (fun a b => ¬ (a.group_id = b.group_id ∧ a.user_id = b.user_id)) :=
      hWFp.sublist (List.filter_sublist l)
    rw [hfs] at hpw
    have hxy := (List.pairwise_cons.mp hpw).1 y (List.mem_cons_self y t)
    rcases of_decide_eq_true (List.mem_filter.mp hx).2 with ⟨hxg, hxr, hxs⟩
    rcases of_decide_eq_true (List.mem_filter.mp hy).2 with ⟨hyg, hyr, hys⟩
    by_cases hxu : x.user_id = uid
    · refine ⟨y, (List.mem_filter.mp hy).1, hyg, hyr, hys, fun hyu => ?_⟩
      exact hxy ⟨hxg.trans hyg.symm, hxu.trans hyu.symm⟩
    · exact ⟨x, (List.mem_filter.mp hx).1, hxg, hxr, hxs, hxu⟩

/-- Removing the unique active (g, uid) row drops the active count by one. -/
theorem activeCount_setStatus_removed (l : List Membership) (g uid : Nat)
    (hWF : WFmem l) (m : Membership) (hm : m ∈ l)
    (hg : m.group_id = g) (hu : m.user_id = uid) (hact : m.status = MStatus.active) :
    activeCount (setStatus g uid MStatus.removed l) g = activeCount l g - 1 := by
  induction l with
  | nil => cases hm
  | cons x t ih =>
    have hpw := List.pairwise_cons.mp hWF
    rcases List.mem_cons.mp hm with rfl | hm2
    · have hxcond : m.group_id = g ∧ m.user_id = uid := ⟨hg, hu⟩
      have htail : ∀ y ∈ t,
          (if y.group_id = g ∧ y.user_id = uid then { y with status := MStatus.removed }
           else y) = y := by
        intro y hy
        refine if_neg fun hc => ?_
        exact hpw.1 y hy ⟨hg.trans hc.1.symm, hu.trans hc.2.symm⟩
      have hmapt : t.map (fun y =>
          if y.group_id = g ∧ y.user_id = uid then { y with status := MStatus.removed }
          else y) = t :=
        (List.map_congr_left htail).trans (List.map_id' t)
      simp only [setStatus, List.map_cons, if_pos hxcond, hmapt, activeCount,
        List.countP_cons]
      have hpx : decide (m.group_id = g ∧ m.status = MStatus.active) = true :=
        decide_eq_true ⟨hg, hact⟩
      have hpx2 : decide ((Membership.mk m.group_id m.user_id m.role MStatus.removed
          m.invite_id m.invited_by).group_id = g ∧
          (Membership.mk m.group_id m.user_id m.role MStatus.removed
          m.invite_id m.invited_by).status = MStatus.active) = false := by
        simp
      rw [hpx]
      simp only [hpx2]
      simp
    · have hxne : ¬ (x.group_id = g ∧ x.user_id = uid) := fun hc =>
        hpw.1 m hm2 ⟨hc.1.trans hg.symm, hc.2.trans hu.symm⟩
      have hrec := ih hpw.2 hm2
      have hpos : 0 < activeCount t g :=
        List.countP_pos_iff.mpr ⟨m, hm2, decide_eq_true ⟨hg, hact⟩⟩
      simp only [setStatus, List.map_cons, if_neg hxne, activeCount,
        List.countP_cons] at hrec hpos ⊢
      by_cases hpx : decide (x.group_id = g ∧ x.status = MStatus.active) = true
      · rw [hpx] at *; omega
      · rw [eq_false_of_ne_true hpx] at *
        omega

/-- A role-only UPDATE leaves the active count unchanged. -/
theorem activeCount_setRole (l : List Membership) (g u g2 : Nat) (r : Role) :
    activeCount (setRole g u r l) g2 = activeCount l g2 := by
  unfold activeCount setRole
  apply countP_map_pred
  intro x
  by_cases h : x.group_id = g ∧ x.user_id = u <;> simp [h]

/-- After a recount, the stored member_count of g is the derived active count. -/
theorem groupCount_recount (s : GState) (g : Nat)
    (h : (groupCount s g).isSome = true) :
    groupCount (recount g s) g = some (activeCount s.memberships g) := by
  unfold groupCount recount at *
  rw [find?_map_pred _ _ (fun gr => by by_cases hgr : gr.group_id = g <;> simp [hgr])]
  rcases hfind : s.groups.find? (fun gr => decide (gr.group_id = g)) with _ | gr0
  · rw [hfind] at h; simp at h
  · have hps := List.find?_some hfind
    have hg0 : gr0.group_id = g := of_decide_eq_true hps
    rw [hfind]
    simp [if_pos hg0]

/-- WFmem rephrased with a tupled key, for the unique-key lookup lemmas. -/
theorem WFmem_key (l : List Membership) (hWF : WFmem l) :
    l.Pairwise fun a b => ¬ ((a.group_id, a.user_id) = (b.group_id, b.user_id)) :=
  List.Pairwise.imp
    (fun hab hc => hab ⟨congrArg Prod.fst hc, congrArg Prod.snd hc⟩) hWF

/-! ### C1 -/

/-- C1 (counterexample): from the empty store, create group 1 with user 1 as
admin, add user 2 as member, and let the sole admin demote themself through
the role-change route; the resulting reachable state has an active member
but no active admin, so not every membership operation preserves the
last-admin predicate. -/
theorem last_admin_invariant_counterexample :
    addMember 1 1 2 (createGroup 1 1 ⟨[], [], [1, 2]⟩) =
      Except.ok ⟨[⟨1, 2⟩],
        [⟨1, 1, Role.admin, MStatus.active, none, none⟩,
         ⟨1, 2, Role.member, MStatus.active, none, none⟩], [1, 2]⟩ ∧
    adminInv ⟨[⟨1, 2⟩],
        [⟨1, 1, Role.admin, MStatus.active, none, none⟩,
         ⟨1, 2, Role.member, MStatus.active, none, none⟩], [1, 2]⟩ 1 ∧
    updateRole 1 1 1 Role.member ⟨[⟨1, 2⟩],
        [⟨1, 1, Role.admin, MStatus.active, none, none⟩,
         ⟨1, 2, Role.member, MStatus.active, none, none⟩], [1, 2]⟩ =
      Except.ok ⟨[⟨1, 2⟩],
        [⟨1, 1, Role.member, MStatus.active, none, none⟩,
         ⟨1, 2, Role.member, MStatus.active, none, none⟩], [1, 2]⟩ ∧
    ¬ adminInv ⟨[⟨1, 2⟩],
        [⟨1, 1, Role.member, MStatus.active, none, none⟩,
         ⟨1, 2, Role.member, MStatus.active, none, none⟩], [1, 2]⟩ 1 :=
  ⟨rfl, by decide, rfl, by decide⟩

/-- C1 (amended): from a well-formed state satisfying the last-admin
predicate, self-leave (thanks to the LastAdminGuard), add-member and
reject-invite preserve the predicate; member removal, role change and
accept-invite are unguarded and can break it, as the counterexample shows
for role change. -/
theorem last_admin_invariant_amended (s : GState) (g : Nat)
    (hWF : WFmem s.memberships) (hinv : adminInv s g) :
    (∀ uid s2, leaveGroup g uid s = Except.ok s2 → adminInv s2 g) ∧
    (∀ actor target s2, addMember g actor target s = Except.ok s2 → adminInv s2 g) ∧
    (∀ inviteId uid s2, rejectInvite g inviteId uid s = Except.ok s2 → adminInv s2 g) := by
  refine ⟨?_, ?_, ?_⟩
  · -- leave
    intro uid s2 hok
    rcases hfind : activeMemL s.memberships g uid with _ | m0
    · simp only [leaveGroup, hfind, Except.ok.injEq] at hok
      subst hok
      rcases hinv with ⟨ma, hma, hag, hmas, hmar⟩ | hnone
      · have hmau : ¬ ma.user_id = uid := by
          intro hmau
          have := List.find?_eq_none.mp hfind ma hma
          exact this (decide_eq_true ⟨hag, hmau, hmas⟩)
        refine Or.inl ⟨ma, ?_, hag, hmas, hmar⟩
        exact List.mem_map.mpr ⟨ma, hma, if_neg fun hc => hmau hc.2⟩
      · refine Or.inr ?_
        intro m2 hm2 hm2g
        rcases List.mem_map.mp hm2 with ⟨x, hx, rfl⟩
        by_cases hc : x.group_id = g ∧ x.user_id = uid
        · rw [if_pos hc]
          intro hcontra
          exact MStatus.noConfusion hcontra
        · rw [if_neg hc] at hm2g ⊢
          exact hnone x hx hm2g
    · have hm0mem : m0 ∈ s.memberships := List.mem_of_find?_eq_some hfind
      have hp0 : isActiveIn g uid m0 = true := List.find?_some hfind
      rcases of_decide_eq_true hp0 with ⟨hm0g, hm0u, hm0act⟩
      by_cases hguard : m0.role = Role.admin ∧ adminCount s.memberships g = 1
      · simp only [leaveGroup, hfind, if_pos hguard] at hok
        exact Except.noConfusion hok
      · simp only [leaveGroup, hfind, if_neg hguard, Except.ok.injEq] at hok
        subst hok
        rcases hinv with ⟨ma, hma, hag, hmas, hmar⟩ | hnone
        · by_cases hmau : ma.user_id = uid
          · have hkey : (ma.group_id, ma.user_id) = (m0.group_id, m0.user_id) := by
              rw [hag, hmau, hm0g, hm0u]
            have hmam0 : ma = m0 :=
              eq_of_pairwise_key (fun m => (m.group_id, m.user_id))
                (WFmem_key _ hWF) hma hm0mem hkey
            have hm0r : m0.role = Role.admin := hmam0 ▸ hmar
            have hac1 : 1 ≤ adminCount s.memberships g :=
              List.countP_pos_iff.mpr ⟨m0, hm0mem, decide_eq_true ⟨hm0g, hm0r, hm0act⟩⟩
            have hac2 : 2 ≤ adminCount s.memberships g := by
              rcases Nat.lt_or_ge (adminCount s.memberships g) 2 with hlt | hge
              · exact absurd ⟨hm0r, by omega⟩ hguard
              · exact hge
            rcases exists_other_admin s.memberships g uid hWF hac2 with
              ⟨x, hx, hxg, hxr, hxs, hxu⟩
            refine Or.inl ⟨x, ?_, hxg, hxs, hxr⟩
            exact List.mem_map.mpr ⟨x, hx, if_neg fun hc => hxu hc.2⟩
          · refine Or.inl ⟨ma, ?_, hag, hmas, hmar⟩
            exact List.mem_map.mpr ⟨ma, hma, if_neg fun hc => hmau hc.2⟩
        · exact absurd hm0act (hnone m0 hm0mem hm0g)
  · -- add member
    intro actor target s2 hok
    by_cases h1 : ¬ isActiveAdminOrMod s.memberships g actor = true
    · rw [addMember, if_pos h1] at hok
      exact Except.noConfusion hok
    · have hIs : isActiveAdminOrMod s.memberships g actor = true := of_not_not h1
      rcases hact : activeMemL s.memberships g actor with _ | a
      · rw [isActiveAdminOrMod, hact] at hIs
        exact Bool.noConfusion hIs
      · have hamem : a ∈ s.memberships := List.mem_of_find?_eq_some hact
        have hpa : isActiveIn g actor a = true := List.find?_some hact
        rcases of_decide_eq_true hpa with ⟨hag2, hau2, haact⟩
        rcases hinv with ⟨ma, hma, hmag, hmas, hmar⟩ | hnone
        · rw [addMember, if_neg h1] at hok
          by_cases h2 : ¬ target ∈ s.users
          · rw [if_pos h2] at hok
            exact Except.noConfusion hok
          · rw [if_neg h2] at hok
            rcases hfind : s.memberships.find?
                (fun m => decide (m.group_id = g ∧ m.user_id = target)) with _ | e
            · simp only [hfind, Except.ok.injEq] at hok
              subst hok
              exact Or.inl ⟨ma, List.mem_append_left _ hma, hmag, hmas, hmar⟩
            · simp only [hfind] at hok
              by_cases hst : e.status = MStatus.active
              · rw [if_pos hst] at hok
                exact Except.noConfusion hok
              · rw [if_neg hst] at hok
                simp only [Except.ok.injEq] at hok
                subst hok
                by_cases hc : ma.group_id = g ∧ ma.user_id = target
                · refine Or.inl ⟨{ ma with status := MStatus.active },
                    List.mem_map.mpr ⟨ma, hma, if_pos hc⟩, hmag, rfl, hmar⟩
                · refine Or.inl ⟨ma, List.mem_map.mpr ⟨ma, hma, if_neg hc⟩,
                    hmag, hmas, hmar⟩
        · exact absurd haact (hnone a hamem hag2)
  · -- reject invite
    intro inviteId uid s2 hok
    rcases hfind : s.memberships.find?
        (fun m => decide (m.group_id = g ∧ m.user_id = uid ∧
          m.invite_id = some inviteId)) with _ | row
    · rw [rejectInvite, hfind] at hok
      exact Except.noConfusion hok
    · have hrmem : row ∈ s.memberships := List.mem_of_find?_eq_some hfind
      have hpr := List.find?_some hfind
      rcases of_decide_eq_true hpr with ⟨hrg, hru, _⟩
      by_cases hst : row.status = MStatus.invited
      · rw [rejectInvite] at hok
        simp only [hfind] at hok
        rw [if_pos hst] at hok
        simp only [Except.ok.injEq] at hok
        subst hok
        rcases hinv with ⟨ma, hma, hmag, hmas, hmar⟩ | hnone
        · by_cases hmau : ma.user_id = uid
          · have hkey : (ma.group_id, ma.user_id) = (row.group_id, row.user_id) := by
              rw [hmag, hmau, hrg, hru]
            have hmarow : ma = row :=
              eq_of_pairwise_key (fun m => (m.group_id, m.user_id))
                (WFmem_key _ hWF) hma hrmem hkey
            rw [hmarow, hst] at hmas
            exact MStatus.noConfusion hmas
          · refine Or.inl ⟨ma, ?_, hmag, hmas, hmar⟩
            exact List.mem_map.mpr ⟨ma, hma, if_neg fun hc => hmau hc.2⟩
        · refine Or.inr ?_
          intro m2 hm2 hm2g
          rcases List.mem_map.mp hm2 with ⟨x, hx, rfl⟩
          by_cases hc : x.group_id = g ∧ x.user_id = uid
          · rw [if_pos hc]
            intro hcontra
            exact MStatus.noConfusion hcontra
          · rw [if_neg hc] at hm2g ⊢
            exact hnone x hx hm2g
      · rw [rejectInvite] at hok
        simp only [hfind] at hok
        rw [if_neg hst] at hok
        exact Except.noConfusion hok

/-- C1 (amended, witness): in a two-member group whose sole admin is user 1,
member 2 leaving keeps the last-admin predicate. -/
theorem last_admin_invariant_amended_witness :
    adminInv ⟨[⟨1, 1⟩],
      [⟨1, 1, Role.admin, MStatus.active, none, none⟩,
       ⟨1, 2, Role.member, MStatus.removed, none, none⟩], [1, 2]⟩ 1 :=
  (last_admin_invariant_amended
      ⟨[⟨1, 2⟩],
        [⟨1, 1, Role.admin, MStatus.active, none, none⟩,
         ⟨1, 2, Role.member, MStatus.active, none, none⟩], [1, 2]⟩ 1
      (by decide) (by decide)).1 2
    ⟨[⟨1, 1⟩],
      [⟨1, 1, Role.admin, MStatus.active, none, none⟩,
       ⟨1, 2, Role.member, MStatus.removed, none, none⟩], [1, 2]⟩ rfl

/-! ### C6 -/

/-- C6: each successful membership-changing operation leaves the operated
group's stored member_count equal to the count of its active membership
rows — add-member, accept-invite, remove-member and self-leave recompute it,
and create-group initializes it to 1 for the creator's sole active row. -/
theorem member_count_sync (s : GState) (g : Nat)
    (hg : (groupCount s g).isSome = true) :
    (∀ actor target s2, addMember g actor target s = Except.ok s2 →
      groupCount s2 g = some (activeCount s2.memberships g)) ∧
    (∀ inviteId uid s2, acceptInvite g inviteId uid s = Except.ok s2 →
      groupCount s2 g = some (activeCount s2.memberships g)) ∧
    (∀ actor memberId s2, removeMember g actor memberId s = Except.ok s2 →
      groupCount s2 g = some (activeCount s2.memberships g)) ∧
    (∀ uid s2, leaveGroup g uid s = Except.ok s2 →
      groupCount s2 g = some (activeCount s2.memberships g)) ∧
    (∀ creator gid, (∀ gr ∈ s.groups, ¬ gr.group_id = gid) →
      (∀ m ∈ s.memberships, ¬ m.group_id = gid) →
      groupCount (createGroup creator gid s) gid =
        some (activeCount (createGroup creator gid s).memberships gid)) := by
  refine ⟨?_, ?_, ?_, ?_, ?_⟩
  · intro actor target s2 hok
    by_cases h1 : ¬ isActiveAdminOrMod s.memberships g actor = true
    · rw [addMember, if_pos h1] at hok
      exact Except.noConfusion hok
    · rw [addMember, if_neg h1] at hok
      by_cases h2 : ¬ target ∈ s.users
      · rw [if_pos h2] at hok
        exact Except.noConfusion hok
      · rw [if_neg h2] at hok
        rcases hfind : s.memberships.find?
            (fun m => decide (m.group_id = g ∧ m.user_id = target)) with _ | e
        · simp only [hfind, Except.ok.injEq] at hok
          subst hok
          exact groupCount_recount _ g hg
        · simp only [hfind] at hok
          by_cases hst : e.status = MStatus.active
          · rw [if_pos hst] at hok
            exact Except.noConfusion hok
          · rw [if_neg hst] at hok
            simp only [Except.ok.injEq] at hok
            subst hok
            exact groupCount_recount _ g hg
  · intro inviteId uid s2 hok
    rcases hfind : s.memberships.find?
        (fun m => decide (m.group_id = g ∧ m.user_id = uid ∧
          m.invite_id = some inviteId)) with _ | row
    · rw [acceptInvite] at hok
      simp only [hfind] at hok
      exact Except.noConfusion hok
    · rw [acceptInvite] at hok
      simp only [hfind] at hok
      by_cases hst : row.status = MStatus.invited
      · rw [if_pos hst] at hok
        simp only [Except.ok.injEq] at hok
        subst hok
        exact groupCount_recount _ g hg
      · rw [if_neg hst] at hok
        exact Except.noConfusion hok
  · intro actor memberId s2 hok
    by_cases hperm : isActiveAdmin s.memberships g actor = true ∨ actor = memberId
    · rw [removeMember, if_pos hperm] at hok
      simp only [Except.ok.injEq] at hok
      subst hok
      exact groupCount_recount _ g hg
    · rw [removeMember, if_neg hperm] at hok
      exact Except.noConfusion hok
  · intro uid s2 hok
    rcases hfind : activeMemL s.memberships g uid with _ | m0
    · simp only [leaveGroup, hfind, Except.ok.injEq] at hok
      subst hok
      exact groupCount_recount _ g hg
    · by_cases hguard : m0.role = Role.admin ∧ adminCount s.memberships g = 1
      · simp only [leaveGroup, hfind, if_pos hguard] at hok
        exact Except.noConfusion hok
      · simp only [leaveGroup, hfind, if_neg hguard, Except.ok.injEq] at hok
        subst hok
        exact groupCount_recount _ g hg
  · intro creator gid hfresh hmfresh
    unfold createGroup groupCount activeCount
    have hnone : s.groups.find? (fun gr => decide (gr.group_id = gid)) = none :=
      List.find?_eq_none.mpr fun x hx hp => hfresh x hx (of_decide_eq_true hp)
    have hzero : s.memberships.countP
        (fun m => decide (m.group_id = gid ∧ m.status = MStatus.active)) = 0 :=
      List.countP_eq_zero.mpr fun m hm hp =>
        hmfresh m hm (of_decide_eq_true hp).1
    rw [List.find?_append, hnone, List.countP_append, hzero]
    simp

/-- C6 (witness): member 2 leaving the two-member group 1 leaves
member_count equal to the one remaining active row. -/
theorem member_count_sync_witness :
    groupCount ⟨[⟨1, 1⟩],
      [⟨1, 1, Role.admin, MStatus.active, none, none⟩,
       ⟨1, 2, Role.member, MStatus.removed, none, none⟩], [1, 2]⟩ 1 =
      some (activeCount
        [⟨1, 1, Role.admin, MStatus.active, none, none⟩,
         ⟨1, 2, Role.member, MStatus.removed, none, none⟩] 1) :=
  (member_count_sync
      ⟨[⟨1, 2⟩],
        [⟨1, 1, Role.admin, MStatus.active, none, none⟩,
         ⟨1, 2, Role.member, MStatus.active, none, none⟩], [1, 2]⟩ 1
      (by decide)).2.2.2.1 2
    ⟨[⟨1, 1⟩],
      [⟨1, 1, Role.admin, MStatus.active, none, none⟩,
       ⟨1, 2, Role.member, MStatus.removed, none, none⟩], [1, 2]⟩ rfl

/-! ### C2 -/

/-- C2: when the actor holds the single active admin membership of group g,
self-leave fails with the LastAdminGuard error (no state is produced); after
promoting an active member b to admin, the actor's self-leave succeeds, the
actor's row becomes removed, and the recomputed member_count is exactly one
less than before. -/
theorem last_admin_guard_scenario (s : GState) (g actor b : Nat)
    (hWF : WFmem s.memberships) (hba : ¬ b = actor)
    (ma : Membership) (hma : ma ∈ s.memberships)
    (hag : ma.group_id = g) (hau : ma.user_id = actor)
    (har : ma.role = Role.admin) (has : ma.status = MStatus.active)
    (honly : adminCount s.memberships g = 1)
    (mb : Membership) (hmb : mb ∈ s.memberships)
    (hbg : mb.group_id = g) (hbu : mb.user_id = b) (hbs : mb.status = MStatus.active)
    (hsync : groupCount s g = some (activeCount s.memberships g)) :
    leaveGroup g actor s = Except.error GErr.lastAdminGuard ∧
    ∃ s2, updateRole g actor b Role.admin s = Except.ok s2 ∧
      ∃ s3, leaveGroup g actor s2 = Except.ok s3 ∧
        groupCount s3 g = some (activeCount s.memberships g - 1) ∧
        (∀ m ∈ s3.memberships, m.group_id = g → m.user_id = actor →
          m.status = MStatus.removed) := by
  have hkeyp : ∀ x : Membership, isActiveIn g actor x = true →
      (x.group_id, x.user_id) = (g, actor) := by
    intro x hx
    rcases of_decide_eq_true hx with ⟨h1, h2, _⟩
    rw [h1, h2]
  have hfinda : activeMemL s.memberships g actor = some ma :=
    find?_eq_some_of_key (fun m => (m.group_id, m.user_id)) (WFmem_key _ hWF)
      hkeyp hma (decide_eq_true ⟨hag, hau, has⟩)
  refine ⟨?_, ?_⟩
  · simp only [leaveGroup, hfinda]
    rw [if_pos ⟨har, honly⟩]
  · have hadm : isActiveAdmin s.memberships g actor = true := by
      simp only [isActiveAdmin, hfinda]
      exact decide_eq_true har
    refine ⟨{ s with memberships := setRole g b Role.admin s.memberships },
      by rw [updateRole, if_pos hadm], ?_⟩
    have hWF2 : WFmem (setRole g b Role.admin s.memberships) :=
      WFmem_map s.memberships _ (setRole_keys g b Role.admin) hWF
    have hcnd : ¬ (ma.group_id = g ∧ ma.user_id = b) :=
      fun hc => hba (hc.2.symm.trans hau)
    have hma2 : ma ∈ setRole g b Role.admin s.memberships :=
      List.mem_map.mpr ⟨ma, hma, if_neg hcnd⟩
    have hmb2 : { mb with role := Role.admin } ∈ setRole g b Role.admin s.memberships :=
      List.mem_map.mpr ⟨mb, hmb, if_pos ⟨hbg, hbu⟩⟩
    have hfinda2 : activeMemL (setRole g b Role.admin s.memberships) g actor = some ma :=
      find?_eq_some_of_key (fun m => (m.group_id, m.user_id)) (WFmem_key _ hWF2)
        hkeyp hma2 (decide_eq_true ⟨hag, hau, has⟩)
    have hne : ma ≠ { mb with role := Role.admin } := by
      intro he
      exact hba (hbu.symm.trans ((congrArg Membership.user_id he).symm.trans hau))
    have hadm2 : 2 ≤ adminCount (setRole g b Role.admin s.memberships) g :=
      two_le_countP _ _ ma { mb with role := Role.admin } hma2 hmb2 hne
        (decide_eq_true ⟨hag, har, has⟩) (decide_eq_true ⟨hbg, rfl, hbs⟩)
    have hng : ¬ (ma.role = Role.admin ∧
        adminCount (setRole g b Role.admin s.memberships) g = 1) := by
      intro hcc
      omega
    refine ⟨recount g
      { s with
        memberships :=
          setStatus g actor MStatus.removed (setRole g b Role.admin s.memberships) },
      ?_, ?_, ?_⟩
    · simp only [leaveGroup, hfinda2]
      rw [if_neg hng]
    · have hgsome : (groupCount { s with
          memberships := setStatus g actor MStatus.removed
            (setRole g b Role.admin s.memberships) } g).isSome = true := by
        show (groupCount s g).isSome = true
        rw [hsync]
        rfl
      have hrec := groupCount_recount { s with
          memberships := setStatus g actor MStatus.removed
            (setRole g b Role.admin s.memberships) } g hgsome
      rw [hrec]
      have hdrop : activeCount (setStatus g actor MStatus.removed
          (setRole g b Role.admin s.memberships)) g =
          activeCount (setRole g b Role.admin s.memberships) g - 1 :=
        activeCount_setStatus_removed _ g actor hWF2 ma hma2 hag hau has
      rw [hdrop, activeCount_setRole]
    · intro m hm hmg hmu
      rcases List.mem_map.mp hm with ⟨x, hx, rfl⟩
      by_cases hc : x.group_id = g ∧ x.user_id = actor
      · rw [if_pos hc]
      · rw [if_neg hc] at hmg hmu ⊢
        exact absurd ⟨hmg, hmu⟩ hc

/-- C2 (witness): in the concrete two-member group where user 1 is the only
active admin, the guard fires; after promoting user 2, user 1's leave
succeeds and member_count drops from 2 to 1. -/
theorem last_admin_guard_scenario_witness :
    leaveGroup 1 1 ⟨[⟨1, 2⟩],
      [⟨1, 1, Role.admin, MStatus.active, none, none⟩,
       ⟨1, 2, Role.member, MStatus.active, none, none⟩], [1, 2]⟩ =
      Except.error GErr.lastAdminGuard ∧
    ∃ s2, updateRole 1 1 2 Role.admin ⟨[⟨1, 2⟩],
      [⟨1, 1, Role.admin, MStatus.active, none, none⟩,
       ⟨1, 2, Role.member, MStatus.active, none, none⟩], [1, 2]⟩ = Except.ok s2 ∧
      ∃ s3, leaveGroup 1 1 s2 = Except.ok s3 ∧
        groupCount s3 1 = some (activeCount
          [⟨1, 1, Role.admin, MStatus.active, none, none⟩,
           ⟨1, 2, Role.member, MStatus.active, none, none⟩] 1 - 1) ∧
        (∀ m ∈ s3.memberships, m.group_id = 1 → m.user_id = 1 →
          m.status = MStatus.removed) :=
  last_admin_guard_scenario ⟨[⟨1, 2⟩],
      [⟨1, 1, Role.admin, MStatus.active, none, none⟩,
       ⟨1, 2, Role.member, MStatus.active, none, none⟩], [1, 2]⟩ 1 1 2
    (by decide) (by decide)
    ⟨1, 1, Role.admin, MStatus.active, none, none⟩ (by decide) rfl rfl rfl rfl
    (by decide)
    ⟨1, 2, Role.member, MStatus.active, none, none⟩ (by decide) rfl rfl rfl
    (by decide)

/-! ### Trust linker lemmas -/

/-- After an upsert in direction (a, b), that direction reads accepted. -/
theorem contactStatus_upsert_self (l : List TContact) (a b : Nat) :
    contactStatus (upsertContact l a b) a b = some TStatus.accepted := by
  rcases h : contactRow l a b with _ | c
  · simp only [upsertContact, h]
    unfold contactStatus contactRow
    unfold contactRow at h
    rw [List.find?_append, h, Option.none_or]
    simp
  · by_cases hacc : c.status = TStatus.accepted
    · simp only [upsertContact, h, if_pos hacc]
      unfold contactStatus
      rw [h]
      simp [hacc]
    · simp only [upsertContact, h, if_neg hacc]
      unfold contactStatus contactRow setContactAccepted
      rw [find?_map_pred _ _
        (fun x => by by_cases hx : x.user_id = a ∧ x.trusted_user_id = b <;> simp [hx])]
      unfold contactRow at h
      rw [h]
      have hpc := List.find?_some h
      rcases of_decide_eq_true hpc with ⟨hcu, hct⟩
      simp [if_pos (⟨hcu, hct⟩ : c.user_id = a ∧ c.trusted_user_id = b)]

/-- An upsert in one direction does not disturb reads of a different direction. -/
theorem contactStatus_upsert_other (l : List TContact) (x0 y0 a b : Nat)
    (hne : ¬ (x0 = a ∧ y0 = b)) :
    contactStatus (upsertContact l x0 y0) a b = contactStatus l a b := by
  rcases h : contactRow l x0 y0 with _ | c
  · simp only [upsertContact, h]
    unfold contactStatus contactRow
    rw [List.find?_append]
    have hsing : ([⟨x0, y0, TStatus.accepted⟩] : List TContact).find?
        (fun c => decide (c.user_id = a ∧ c.trusted_user_id = b)) = none := by
      refine List.find?_eq_none.mpr fun z hz hp => ?_
      rcases List.mem_singleton.mp hz with rfl
      exact hne (of_decide_eq_true hp)
    rw [hsing, Option.or_none]
  · by_cases hacc : c.status = TStatus.accepted
    · simp only [upsertContact, h, if_pos hacc]
    · simp only [upsertContact, h, if_neg hacc]
      unfold contactStatus contactRow setContactAccepted
      rw [find?_map_pred _ _
        (fun z => by by_cases hz : z.user_id = x0 ∧ z.trusted_user_id = y0 <;> simp [hz])]
      rcases hd : l.find? (fun c => decide (c.user_id = a ∧ c.trusted_user_id = b)) with _ | d
      · rw [hd]; rfl
      · have hpd := List.find?_some hd
        rcases of_decide_eq_true hpd with ⟨hdu, hdt⟩
        have hdne : ¬ (d.user_id = x0 ∧ d.trusted_user_id = y0) := fun hc =>
          hne ⟨hc.1.symm.trans hdu, hc.2.symm.trans hdt⟩
        rw [hd]
        simp [if_neg hdne]

/-! ### C3 -/

/-- C3: for distinct users with no prior follow edges, follow(a,b) emits the
generic new-follower notification and leaves the trusted contacts untouched;
the reciprocal follow(b,a) is detected as mutual, leaves accepted
TrustedContact rows in both directions and appends the distinguished
new-trusted-contact notification for a instead of the generic one. -/
theorem mutual_follow_trust_link (s : SState) (a b : Nat)
    (hab : ¬ a = b) (ha : a ∈ s.users) (hb : b ∈ s.users)
    (hnab : followExists s.follows a b = false)
    (hnba : followExists s.follows b a = false) :
    ∃ s1, followOp s a b = Except.ok s1 ∧
      s1.notifs = s.notifs ++ [newFollowerNotif a b] ∧
      s1.contacts = s.contacts ∧
      ∃ s2, followOp s1 b a = Except.ok s2 ∧
        contactStatus s2.contacts a b = some TStatus.accepted ∧
        contactStatus s2.contacts b a = some TStatus.accepted ∧
        s2.notifs = s1.notifs ++ [newTrustedNotif b a] := by
  have hmut1 : followExists
      (s.follows ++ [{ follower_id := a, followed_id := b }]) b a = false := by
    unfold followExists at hnba ⊢
    rw [List.any_append, hnba]
    simp [hab]
  have hcn1 : (createNotification s.notifs (newFollowerNotif a b)).2 =
      s.notifs ++ [newFollowerNotif a b] := by
    simp [createNotification, newFollowerNotif, validTypes]
  refine ⟨{ s with
      follows := s.follows ++ [{ follower_id := a, followed_id := b }],
      notifs := s.notifs ++ [newFollowerNotif a b] }, ?_, rfl, rfl, ?_⟩
  · simp only [followOp]
    rw [if_neg hab, if_neg (not_not_intro hb), hnab, if_neg Bool.false_ne_true,
      hmut1, if_neg Bool.false_ne_true, if_pos ha, hcn1]
  · have hba : ¬ b = a := fun h => hab h.symm
    have hconf : followExists
        (s.follows ++ [{ follower_id := a, followed_id := b }]) b a = false := hmut1
    have hmut2 : followExists
        ((s.follows ++ [{ follower_id := a, followed_id := b }]) ++
          [{ follower_id := b, followed_id := a }]) a b = true := by
      unfold followExists
      rw [List.any_append, List.any_append]
      simp
    have hcn2 : (createNotification (s.notifs ++ [newFollowerNotif a b])
        (newTrustedNotif b a)).2 =
        (s.notifs ++ [newFollowerNotif a b]) ++ [newTrustedNotif b a] := by
      simp [createNotification, newTrustedNotif, validTypes]
    refine ⟨{ s with
        follows := (s.follows ++ [{ follower_id := a, followed_id := b }]) ++
          [{ follower_id := b, followed_id := a }],
        contacts := upsertContact (upsertContact s.contacts b a) a b,
        notifs := (s.notifs ++ [newFollowerNotif a b]) ++ [newTrustedNotif b a] },
      ?_, ?_, ?_, rfl⟩
    · simp only [followOp]
      rw [if_neg hba, if_neg (not_not_intro ha), hconf, if_neg Bool.false_ne_true,
        hmut2, if_pos rfl, if_pos hb, hcn2]
    · exact contactStatus_upsert_self _ a b
    · rw [contactStatus_upsert_other _ a b b a fun hc => hab hc.1]
      exact contactStatus_upsert_self _ b a

/-- C3 (witness): users 1 and 2 from an empty graph. -/
theorem mutual_follow_trust_link_witness :
    ∃ s1, followOp ⟨[1, 2], [], [], []⟩ 1 2 = Except.ok s1 ∧
      s1.notifs = [] ++ [newFollowerNotif 1 2] ∧
      s1.contacts = [] ∧
      ∃ s2, followOp s1 2 1 = Except.ok s2 ∧
        contactStatus s2.contacts 1 2 = some TStatus.accepted ∧
        contactStatus s2.contacts 2 1 = some TStatus.accepted ∧
        s2.notifs = s1.notifs ++ [newTrustedNotif 2 1] :=
  mutual_follow_trust_link ⟨[1, 2], [], [], []⟩ 1 2
    (by decide) (by decide) (by decide) rfl rfl

/-! ### C4 -/

/-- C4 (counterexample): users 1 and 2 follow each other and hold symmetric
accepted TrustedContact rows; unfollow(1,2) removes the Follow row but, since
user 2 still follows user 1, both TrustedContact rows are retained — the
claimed unconditional deletion does not happen. -/
theorem trust_unlink_counterexample :
    unfollowOp ⟨[1, 2], [⟨1, 2⟩, ⟨2, 1⟩],
        [⟨1, 2, TStatus.accepted⟩, ⟨2, 1, TStatus.accepted⟩], []⟩ 1 2 =
      Except.ok ⟨[1, 2], [⟨2, 1⟩],
        [⟨1, 2, TStatus.accepted⟩, ⟨2, 1, TStatus.accepted⟩], []⟩ ∧
    contactRow [⟨1, 2, TStatus.accepted⟩, ⟨2, 1, TStatus.accepted⟩] 1 2 =
      some ⟨1, 2, TStatus.accepted⟩ ∧
    contactRow [⟨1, 2, TStatus.accepted⟩, ⟨2, 1, TStatus.accepted⟩] 2 1 =
      some ⟨2, 1, TStatus.accepted⟩ :=
  ⟨rfl, by decide, by decide⟩

/-- C4 (amended): unfollow(a,b) deletes the Follow row from a to b; the two
TrustedContact rows are deleted exactly when the reverse Follow from b to a
no longer exists after that deletion — when b still follows a they are
retained unchanged. -/
theorem trust_unlink_amended (s : SState) (a b : Nat)
    (hf : followExists s.follows a b = true) :
    ∃ s2, unfollowOp s a b = Except.ok s2 ∧
      s2.follows = s.follows.filter
        (fun f => decide (¬ (f.follower_id = a ∧ f.followed_id = b))) ∧
      (followExists s2.follows b a = true → s2.contacts = s.contacts) ∧
      (followExists s2.follows b a = false →
        s2.contacts = s.contacts.filter fun c =>
          decide (¬ ((c.user_id = a ∧ c.trusted_user_id = b) ∨
                     (c.user_id = b ∧ c.trusted_user_id = a)))) := by
  have hlt : (s.follows.filter
      (fun f => decide (¬ (f.follower_id = a ∧ f.followed_id = b)))).length <
        s.follows.length := by
    rcases List.any_eq_true.mp hf with ⟨f0, hf0, hpf0⟩
    refine List.length_filter_lt_length_iff_exists.mpr ⟨f0, hf0, ?_⟩
    intro hc
    exact of_decide_eq_true hc (of_decide_eq_true hpf0)
  have hnel : ¬ ((s.follows.filter
      (fun f => decide (¬ (f.follower_id = a ∧ f.followed_id = b)))).length =
        s.follows.length) := Nat.ne_of_lt hlt
  by_cases hrev : followExists (s.follows.filter
      (fun f => decide (¬ (f.follower_id = a ∧ f.followed_id = b)))) b a = true
  · refine ⟨{ s with
        follows := s.follows.filter
          (fun f => decide (¬ (f.follower_id = a ∧ f.followed_id = b))) },
      ?_, rfl, fun _ => rfl, fun h => Bool.noConfusion (hrev.symm.trans h)⟩
    simp only [unfollowOp]
    rw [if_neg hnel, hrev, if_pos rfl]
  · have hrev2 : followExists (s.follows.filter
        (fun f => decide (¬ (f.follower_id = a ∧ f.followed_id = b)))) b a = false :=
      eq_false_of_ne_true hrev
    refine ⟨{ s with
        follows := s.follows.filter
          (fun f => decide (¬ (f.follower_id = a ∧ f.followed_id = b))),
        contacts := s.contacts.filter fun c =>
          decide (¬ ((c.user_id = a ∧ c.trusted_user_id = b) ∨
                     (c.user_id = b ∧ c.trusted_user_id = a))) },
      ?_, rfl, fun h => Bool.noConfusion (hrev2.symm.trans h), fun _ => rfl⟩
    simp only [unfollowOp]
    rw [if_neg hnel, hrev2, if_neg Bool.false_ne_true]

/-- C4 (amended, witness): in the mutual state for users 1 and 2,
unfollow(1,2) keeps both TrustedContact rows because 2 still follows 1. -/
theorem trust_unlink_amended_witness :
    ∃ s2, unfollowOp ⟨[1, 2], [⟨1, 2⟩, ⟨2, 1⟩],
        [⟨1, 2, TStatus.accepted⟩, ⟨2, 1, TStatus.accepted⟩], []⟩ 1 2 =
        Except.ok s2 ∧
      s2.follows = [⟨1, 2⟩, ⟨2, 1⟩].filter
        (fun f => decide (¬ (f.follower_id = 1 ∧ f.followed_id = 2))) ∧
      (followExists s2.follows 2 1 = true →
        s2.contacts = [⟨1, 2, TStatus.accepted⟩, ⟨2, 1, TStatus.accepted⟩]) ∧
      (followExists s2.follows 2 1 = false →
        s2.contacts = [⟨1, 2, TStatus.accepted⟩,
            ⟨2, 1, TStatus.accepted⟩].filter fun c =>
          decide (¬ ((c.user_id = 1 ∧ c.trusted_user_id = 2) ∨
                     (c.user_id = 2 ∧ c.trusted_user_id = 1)))) :=
  trust_unlink_amended ⟨[1, 2], [⟨1, 2⟩, ⟨2, 1⟩],
    [⟨1, 2, TStatus.accepted⟩, ⟨2, 1, TStatus.accepted⟩], []⟩ 1 2 (by decide)

/-! ### C8 -/

/-- C8 (counterexample): POST /notifications rejects type group_invite even
though group_invite belongs to the closed enum accepted by the
createNotification helper, so the two entry points do not validate against
the same enum. -/
theorem notification_enum_counterexample :
    postNotification [] ⟨1, "group_invite", "Group Invitation", none, none⟩ =
      Except.error GErr.validation ∧
    "group_invite" ∈ validTypes ∧
    (createNotification [] ⟨1, "group_invite", "Group Invitation", none, none⟩).1 ≠ none := by
  refine ⟨?_, by decide, by decide⟩
  rfl

/-! ### C9 -/

/-- C9 (counterexample): direct message 1 exists with sender 1; the delete
call by user 2 (not the sender) fails with the same notFound error as the
delete of the absent message 99 — not with a distinguishable Forbidden. -/
theorem direct_delete_counterexample :
    deleteDirectMessage [⟨1, 1, 2, "hi", none, 0, false, false⟩] 1 2 =
      Except.error MsgErr.notFound ∧
    deleteDirectMessage [⟨1, 1, 2, "hi", none, 0, false, false⟩] 99 2 =
      Except.error MsgErr.notFound ∧
    MsgErr.notFound ≠ MsgErr.forbidden :=
  ⟨rfl, rfl, by decide⟩

/-! ### C7 -/

set_option maxRecDepth 100000 in
/-- C7 (counterexample): the group message listing applies the requested
limit directly as the SQL LIMIT, so a request with limit 201 on a group
holding 201 messages returns 201 rows, above the claimed hard cap of 200. -/
theorem pagination_cap_counterexample :
    (groupMessagePage
        ((List.range 201).map fun i => ⟨i, 1, 2, "m", none, i, false, false⟩)
        1 (some 201) none).length = 201 ∧ 200 < 201 := by
  refine ⟨?_, by decide⟩
  rfl

/-! ### C10 -/

/-- C10: marking group g read as member u (the shared side effect of the
message listing and of the mark-as-read route) sets the single per-message
is_read flag on every message authored by anyone other than u, so any other
member v afterwards observes an unread count equal to the number of
still-unread messages authored by u alone. -/
theorem group_read_shared_flag (mems : List Membership) (msgs : List CMessage)
    (g u v : Nat) (hvu : v ≠ u)
    (hu : (activeMemL mems g u).isSome) (hv : (activeMemL mems g v).isSome) :
    markGroupMessagesRead mems msgs g u = Except.ok (markGroupRead msgs g u) ∧
    (∀ m ∈ markGroupRead msgs g u, m.group_id = g → m.user_id ≠ u → m.is_read = true) ∧
    getGroupUnreadCount mems (markGroupRead msgs g u) g v =
      Except.ok (msgs.countP fun m =>
        decide (m.group_id = g ∧ m.user_id = u ∧ m.is_read = false)) := by
  refine ⟨by simp [markGroupMessagesRead, hu], ?_, ?_⟩
  · intro m hm hmg hmu
    rcases List.mem_map.mp hm with ⟨x, hx, rfl⟩
    by_cases hcond : x.group_id = g ∧ ¬ x.user_id = u
    · simp [if_pos hcond]
    · rw [if_neg hcond] at hmg hmu ⊢
      exact absurd ⟨hmg, hmu⟩ hcond
  · have hcount : groupUnread (markGroupRead msgs g u) g v =
        msgs.countP fun m => decide (m.group_id = g ∧ m.user_id = u ∧ m.is_read = false) := by
      unfold groupUnread markGroupRead
      rw [List.countP_map]
      congr 1
      funext x
      by_cases h1 : x.group_id = g
      · by_cases h2 : x.user_id = u
        · simp [Function.comp, h1, h2, Ne.symm hvu]
        · simp [Function.comp, h1, h2]
      · simp [Function.comp, h1]
    simp [getGroupUnreadCount, hv, hcount]

/-- C10 (witness): two messages in group 1, one authored by user 1 and one by
user 2, both unread; user 1 marks the group read and user 2 then sees exactly
the one still-unread message authored by user 1. -/
theorem group_read_shared_flag_witness :
    markGroupMessagesRead [⟨1, 1, Role.admin, MStatus.active, none, none⟩,
        ⟨1, 2, Role.member, MStatus.active, none, none⟩]
      [⟨1, 1, 1, "a", none, 0, false, false⟩, ⟨2, 1, 2, "b", none, 1, false, false⟩] 1 1 =
      Except.ok (markGroupRead
        [⟨1, 1, 1, "a", none, 0, false, false⟩, ⟨2, 1, 2, "b", none, 1, false, false⟩] 1 1) ∧
    getGroupUnreadCount [⟨1, 1, Role.admin, MStatus.active, none, none⟩,
        ⟨1, 2, Role.member, MStatus.active, none, none⟩]
      (markGroupRead
        [⟨1, 1, 1, "a", none, 0, false, false⟩, ⟨2, 1, 2, "b", none, 1, false, false⟩] 1 1)
      1 2 = Except.ok 1 := by
  have h := group_read_shared_flag
    [⟨1, 1, Role.admin, MStatus.active, none, none⟩,
     ⟨1, 2, Role.member, MStatus.active, none, none⟩]
    [⟨1, 1, 1, "a", none, 0, false, false⟩, ⟨2, 1, 2, "b", none, 1, false, false⟩]
    1 1 2 (by decide) (by decide) (by decide)
  exact ⟨h.1, by rw [h.2.2]; rfl⟩

/-- C8 (amended): the createNotification helper validates against the full
eight-value enum (unknown types return null with no write, enum types are
persisted), while POST /notifications validates against a six-value list
that omits group_invite and group and therefore rejects those two enum
members. -/
theorem notification_enum_amended :
    (∀ (store : List Notification) (n : Notification), n.ntype ∉ validTypes →
      createNotification store n = (none, store)) ∧
    (∀ (store : List Notification) (n : Notification), n.ntype ∈ validTypes →
      createNotification store n = (some n, store ++ [n])) ∧
    (∀ (store : List Notification) (n : Notification), n.ntype ∈ postValidTypes →
      postNotification store n = Except.ok (store ++ [n])) ∧
    (∀ (store : List Notification) (n : Notification), n.ntype ∉ postValidTypes →
      postNotification store n = Except.error GErr.validation) ∧
    ("group_invite" ∈ validTypes ∧ "group_invite" ∉ postValidTypes) ∧
    ("group" ∈ validTypes ∧ "group" ∉ postValidTypes) := by
  refine ⟨?_, ?_, ?_, ?_, by decide, by decide⟩ <;>
    intro store n h <;> simp [createNotification, postNotification, h]

/-- C8 (amended, witness): a bogus type is dropped by the helper without a
write, and type alert passes both entry points. -/
theorem notification_enum_amended_witness :
    createNotification [] ⟨1, "bogus", "t", none, none⟩ = (none, []) ∧
    createNotification [] ⟨1, "group_invite", "t", none, none⟩ =
      (some ⟨1, "group_invite", "t", none, none⟩, [⟨1, "group_invite", "t", none, none⟩]) ∧
    postNotification [] ⟨1, "alert", "t", none, none⟩ =
      Except.ok [⟨1, "alert", "t", none, none⟩] :=
  ⟨notification_enum_amended.1 [] ⟨1, "bogus", "t", none, none⟩ (by decide),
   notification_enum_amended.2.1 [] ⟨1, "group_invite", "t", none, none⟩ (by decide),
   notification_enum_amended.2.2.1 [] ⟨1, "alert", "t", none, none⟩ (by decide)⟩

/-- C9 (amended): deleting an existing direct message as an authenticated
non-sender fails with the same notFound error that an absent message id
produces (the route's lookup filters on sender_id), and no deletion happens;
the two situations are not distinguishable to the caller. -/
theorem direct_delete_amended (msgs : List DMessage) (mid actor : Nat)
    (hWF : msgs.Pairwise fun x y => ¬ x.message_id = y.message_id) :
    (∀ m ∈ msgs, m.message_id = mid → m.sender_id ≠ actor →
      deleteDirectMessage msgs mid actor = Except.error MsgErr.notFound) ∧
    ((∀ m ∈ msgs, m.message_id ≠ mid) →
      deleteDirectMessage msgs mid actor = Except.error MsgErr.notFound) := by
  constructor
  · intro m hm hid hs
    have hnone : msgs.find? (fun x => decide (x.message_id = mid ∧ x.sender_id = actor))
        = none := by
      apply List.find?_eq_none.mpr
      intro x hx hpx
      rcases of_decide_eq_true hpx with ⟨hxid, hxs⟩
      have : x = m := eq_of_pairwise_key DMessage.message_id hWF hx hm (hxid.trans hid.symm)
      exact hs (this ▸ hxs)
    unfold deleteDirectMessage
    rw [hnone]
  · intro hnone
    have hfind : msgs.find? (fun x => decide (x.message_id = mid ∧ x.sender_id = actor))
        = none := by
      apply List.find?_eq_none.mpr
      intro x hx hpx
      exact hnone x hx (of_decide_eq_true hpx).1
    unfold deleteDirectMessage
    rw [hfind]

/-- C9 (amended, witness): message 1 was sent by user 1; user 2's delete and
the delete of absent id 99 both return notFound. -/
theorem direct_delete_amended_witness :
    deleteDirectMessage [⟨1, 1, 2, "hi", none, 0, false, false⟩] 1 2 =
      Except.error MsgErr.notFound ∧
    deleteDirectMessage [⟨1, 1, 2, "hi", none, 0, false, false⟩] 99 2 =
      Except.error MsgErr.notFound :=
  ⟨(direct_delete_amended [⟨1, 1, 2, "hi", none, 0, false, false⟩] 1 2 (by decide)).1
      ⟨1, 1, 2, "hi", none, 0, false, false⟩ (by decide) (by decide) (by decide),
   (direct_delete_amended [⟨1, 1, 2, "hi", none, 0, false, false⟩] 99 2 (by decide)).2
      (by decide)⟩

/-! ### C5 -/

theorem editDirectMessage_found (msgs : List DMessage) (mid actor now : Nat)
    (content : String) (m : DMessage)
    (hc2 : ¬ (blankContent content = true))
    (hfind : msgs.find? (fun x => decide (x.message_id = mid ∧ x.sender_id = actor))
      = some m) :
    editDirectMessage msgs mid actor content now =
      (if m.media_url.isSome = true then Except.error MsgErr.mediaNotEditable
       else if editWindowMs < now - m.created_at then Except.error MsgErr.editWindowExpired
       else Except.ok (msgs.map fun x =>
         if x.message_id = mid then { x with content := content, is_edited := true }
         else x)) := by
  unfold editDirectMessage
  rw [if_neg hc2, hfind]

theorem editDirectMessage_absent (msgs : List DMessage) (mid actor now : Nat)
    (content : String)
    (hc2 : ¬ (blankContent content = true))
    (hfind : msgs.find? (fun x => decide (x.message_id = mid ∧ x.sender_id = actor))
      = none) :
    editDirectMessage msgs mid actor content now = Except.error MsgErr.notFound := by
  unfold editDirectMessage
  rw [if_neg hc2, hfind]

theorem editGroupMessage_found (msgs : List CMessage) (g mid actor now : Nat)
    (content : String) (m : CMessage)
    (hc2 : ¬ (blankContent content = true))
    (hfind : msgs.find?
        (fun x => decide (x.message_id = mid ∧ x.group_id = g ∧ x.user_id = actor))
      = some m) :
    editGroupMessage msgs g mid actor content now =
      (if m.media_url.isSome = true then Except.error MsgErr.mediaNotEditable
       else if editWindowMs < now - m.created_at then Except.error MsgErr.editWindowExpired
       else Except.ok (msgs.map fun x =>
         if x.message_id = mid then { x with content := content, is_edited := true }
         else x)) := by
  unfold editGroupMessage
  rw [if_neg hc2, hfind]

theorem editGroupMessage_absent (msgs : List CMessage) (g mid actor now : Nat)
    (content : String)
    (hc2 : ¬ (blankContent content = true))
    (hfind : msgs.find?
        (fun x => decide (x.message_id = mid ∧ x.group_id = g ∧ x.user_id = actor))
      = none) :
    editGroupMessage msgs g mid actor content now = Except.error MsgErr.notFound := by
  unfold editGroupMessage
  rw [if_neg hc2, hfind]

/-- C5: a direct or group message edit with nonempty content succeeds exactly
when the actor is the stored author, the message carries no media, and the
wall-clock delta from the stored creation time is at most 15 minutes; past
the window the call fails with the edit-window error and no update runs. -/
theorem edit_window_correct :
    (∀ (msgs : List DMessage) (mid actor now : Nat) (content : String),
      (msgs.Pairwise fun x y => ¬ x.message_id = y.message_id) →
      blankContent content = false →
      ∀ m ∈ msgs, m.message_id = mid →
      ((∃ l2, editDirectMessage msgs mid actor content now = Except.ok l2) ↔
        m.sender_id = actor ∧ m.media_url = none ∧ now - m.created_at ≤ editWindowMs) ∧
      (m.sender_id = actor → m.media_url = none → editWindowMs < now - m.created_at →
        editDirectMessage msgs mid actor content now =
          Except.error MsgErr.editWindowExpired)) ∧
    (∀ (msgs : List CMessage) (g mid actor now : Nat) (content : String),
      (msgs.Pairwise fun x y => ¬ x.message_id = y.message_id) →
      blankContent content = false →
      ∀ m ∈ msgs, m.message_id = mid → m.group_id = g →
      ((∃ l2, editGroupMessage msgs g mid actor content now = Except.ok l2) ↔
        m.user_id = actor ∧ m.media_url = none ∧ now - m.created_at ≤ editWindowMs) ∧
      (m.user_id = actor → m.media_url = none → editWindowMs < now - m.created_at →
        editGroupMessage msgs g mid actor content now =
          Except.error MsgErr.editWindowExpired)) := by
  constructor
  · intro msgs mid actor now content hWF hc m hm hid
    have hc2 : ¬ (blankContent content = true) := by rw [hc]; exact Bool.false_ne_true
    by_cases hs : m.sender_id = actor
    · have hfind : msgs.find?
          (fun x => decide (x.message_id = mid ∧ x.sender_id = actor)) = some m :=
        find?_eq_some_of_key DMessage.message_id hWF
          (fun x hx => (of_decide_eq_true hx).1) hm (decide_eq_true ⟨hid, hs⟩)
      have hred := editDirectMessage_found msgs mid actor now content m hc2 hfind
      by_cases hmu : m.media_url = none
      · have hmus : ¬ (m.media_url.isSome = true) := by simp [hmu]
        rw [if_neg hmus] at hred
        by_cases hw : editWindowMs < now - m.created_at
        · rw [if_pos hw] at hred
          refine ⟨⟨fun ⟨l2, hl2⟩ => ?_, fun ⟨_, _, hle⟩ => absurd hw (not_lt.mpr hle)⟩,
            fun _ _ _ => hred⟩
          rw [hred] at hl2
          exact Except.noConfusion hl2
        · rw [if_neg hw] at hred
          exact ⟨⟨fun _ => ⟨hs, hmu, not_lt.mp hw⟩, fun _ => ⟨_, hred⟩⟩,
            fun _ _ hw2 => absurd hw2 hw⟩
      · have hmus : m.media_url.isSome = true := Option.ne_none_iff_isSome.mp hmu
        rw [if_pos hmus] at hred
        refine ⟨⟨fun ⟨l2, hl2⟩ => ?_, fun ⟨_, hmn, _⟩ => absurd hmn hmu⟩,
          fun _ hmn _ => absurd hmn hmu⟩
        rw [hred] at hl2
        exact Except.noConfusion hl2
    · have hfind : msgs.find?
          (fun x => decide (x.message_id = mid ∧ x.sender_id = actor)) = none := by
        apply List.find?_eq_none.mpr
        intro x hx hpx
        rcases of_decide_eq_true hpx with ⟨hxid, hxs⟩
        have hxm : x = m :=
          eq_of_pairwise_key DMessage.message_id hWF hx hm (hxid.trans hid.symm)
        exact hs (hxm ▸ hxs)
      have hred := editDirectMessage_absent msgs mid actor now content hc2 hfind
      refine ⟨⟨fun ⟨l2, hl2⟩ => ?_, fun ⟨hs2, _, _⟩ => absurd hs2 hs⟩,
        fun hs2 _ _ => absurd hs2 hs⟩
      rw [hred] at hl2
      exact Except.noConfusion hl2
  · intro msgs g mid actor now content hWF hc m hm hid hgr
    have hc2 : ¬ (blankContent content = true) := by rw [hc]; exact Bool.false_ne_true
    by_cases hs : m.user_id = actor
    · have hfind : msgs.find?
          (fun x => decide (x.message_id = mid ∧ x.group_id = g ∧ x.user_id = actor))
          = some m :=
        find?_eq_some_of_key CMessage.message_id hWF
          (fun x hx => (of_decide_eq_true hx).1) hm (decide_eq_true ⟨hid, hgr, hs⟩)
      have hred := editGroupMessage_found msgs g mid actor now content m hc2 hfind
      by_cases hmu : m.media_url = none
      · have hmus : ¬ (m.media_url.isSome = true) := by simp [hmu]
        rw [if_neg hmus] at hred
        by_cases hw : editWindowMs < now - m.created_at
        · rw [if_pos hw] at hred
          refine ⟨⟨fun ⟨l2, hl2⟩ => ?_, fun ⟨_, _, hle⟩ => absurd hw (not_lt.mpr hle)⟩,
            fun _ _ _ => hred⟩
          rw [hred] at hl2
          exact Except.noConfusion hl2
        · rw [if_neg hw] at hred
          exact ⟨⟨fun _ => ⟨hs, hmu, not_lt.mp hw⟩, fun _ => ⟨_, hred⟩⟩,
            fun _ _ hw2 => absurd hw2 hw⟩
      · have hmus : m.media_url.isSome = true := Option.ne_none_iff_isSome.mp hmu
        rw [if_pos hmus] at hred
        refine ⟨⟨fun ⟨l2, hl2⟩ => ?_, fun ⟨_, hmn, _⟩ => absurd hmn hmu⟩,
          fun _ hmn _ => absurd hmn hmu⟩
        rw [hred] at hl2
        exact Except.noConfusion hl2
    · have hfind : msgs.find?
          (fun x => decide (x.message_id = mid ∧ x.group_id = g ∧ x.user_id = actor))
          = none := by
        apply List.find?_eq_none.mpr
        intro x hx hpx
        rcases of_decide_eq_true hpx with ⟨hxid, _, hxs⟩
        have hxm : x = m :=
          eq_of_pairwise_key CMessage.message_id hWF hx hm (hxid.trans hid.symm)
        exact hs (hxm ▸ hxs)
      have hred := editGroupMessage_absent msgs g mid actor now content hc2 hfind
      refine ⟨⟨fun ⟨l2, hl2⟩ => ?_, fun ⟨hs2, _, _⟩ => absurd hs2 hs⟩,
        fun hs2 _ _ => absurd hs2 hs⟩
      rw [hred] at hl2
      exact Except.noConfusion hl2

/-- C5 (witness): a media-free direct message created at time 0 is editable
by its sender at 14:59 (899000 ms) and expires at 15:01 (901000 ms); the
group analogue behaves identically. -/
theorem edit_window_correct_witness :
    (∃ l2, editDirectMessage [⟨1, 1, 2, "hi", none, 0, false, false⟩] 1 1 "yo" 899000 =
      Except.ok l2) ∧
    editDirectMessage [⟨1, 1, 2, "hi", none, 0, false, false⟩] 1 1 "yo" 901000 =
      Except.error MsgErr.editWindowExpired ∧
    (∃ l2, editGroupMessage [⟨1, 7, 1, "hi", none, 0, false, false⟩] 7 1 1 "yo" 899000 =
      Except.ok l2) ∧
    editGroupMessage [⟨1, 7, 1, "hi", none, 0, false, false⟩] 7 1 1 "yo" 901000 =
      Except.error MsgErr.editWindowExpired :=
  ⟨(edit_window_correct.1 [⟨1, 1, 2, "hi", none, 0, false, false⟩] 1 1 899000 "yo"
      (by decide) (by decide) ⟨1, 1, 2, "hi", none, 0, false, false⟩ (by decide)
      (by decide)).1.mpr ⟨rfl, rfl, by decide⟩,
   (edit_window_correct.1 [⟨1, 1, 2, "hi", none, 0, false, false⟩] 1 1 901000 "yo"
      (by decide) (by decide) ⟨1, 1, 2, "hi", none, 0, false, false⟩ (by decide)
      (by decide)).2 rfl rfl (by decide),
   (edit_window_correct.2 [⟨1, 7, 1, "hi", none, 0, false, false⟩] 7 1 1 899000 "yo"
      (by decide) (by decide) ⟨1, 7, 1, "hi", none, 0, false, false⟩ (by decide)
      (by decide) (by decide)).1.mpr ⟨rfl, rfl, by decide⟩,
   (edit_window_correct.2 [⟨1, 7, 1, "hi", none, 0, false, false⟩] 7 1 1 901000 "yo"
      (by decide) (by decide) ⟨1, 7, 1, "hi", none, 0, false, false⟩ (by decide)
      (by decide) (by decide)).2 rfl rfl (by decide)⟩

/-! ### C7 (amended) -/

/-- C7 (amended): both listings default to a page of at most 50 and deliver
the page in chronological order with every row strictly below the id cursor;
the direct listing caps an explicit limit at 200, but the group listing uses
the requested limit directly (bounded only by that limit), so the 200 hard
cap holds only for the direct route. -/
theorem pagination_amended :
    (∀ (msgs : List DMessage) (selfId otherId : Nat) (before : Option Nat),
      (directMessagePage msgs selfId otherId none before).length ≤ 50) ∧
    (∀ (msgs : List DMessage) (selfId otherId lim : Nat) (before : Option Nat),
      (directMessagePage msgs selfId otherId (some lim) before).length ≤ 200) ∧
    (∀ (msgs : List CMessage) (g : Nat) (before : Option Nat),
      (groupMessagePage msgs g none before).length ≤ 50) ∧
    (∀ (msgs : List CMessage) (g lim : Nat) (before : Option Nat),
      (groupMessagePage msgs g (some lim) before).length ≤ lim) ∧
    (∀ (msgs : List DMessage) (selfId otherId : Nat) (lim before : Option Nat),
      (directMessagePage msgs selfId otherId lim before).Pairwise
        fun a b => a.created_at ≤ b.created_at) ∧
    (∀ (msgs : List CMessage) (g : Nat) (lim before : Option Nat),
      (groupMessagePage msgs g lim before).Pairwise
        fun a b => a.created_at ≤ b.created_at) ∧
    (∀ (msgs : List DMessage) (selfId otherId : Nat) (lim : Option Nat) (b : Nat)
      (m : DMessage), m ∈ directMessagePage msgs selfId otherId lim (some b) →
      m.message_id < b) ∧
    (∀ (msgs : List CMessage) (g : Nat) (lim : Option Nat) (b : Nat)
      (m : CMessage), m ∈ groupMessagePage msgs g lim (some b) →
      m.message_id < b) := by
  refine ⟨?_, ?_, ?_, ?_, ?_, ?_, ?_, ?_⟩
  · intro msgs selfId otherId before
    simp only [directMessagePage, List.length_reverse, List.length_take]
    omega
  · intro msgs selfId otherId lim before
    simp only [directMessagePage, List.length_reverse, List.length_take]
    omega
  · intro msgs g before
    simp only [groupMessagePage, List.length_reverse, List.length_take]
    omega
  · intro msgs g lim before
    simp only [groupMessagePage, List.length_reverse, List.length_take]
    omega
  · intro msgs selfId otherId lim before
    simp only [directMessagePage]
    refine List.pairwise_reverse.mpr ?_
    exact ((List.sorted_insertionSort (createdDesc DMessage.created_at) _).sublist
      (List.take_sublist _ _))
  · intro msgs g lim before
    simp only [groupMessagePage]
    refine List.pairwise_reverse.mpr ?_
    exact ((List.sorted_insertionSort (createdDesc CMessage.created_at) _).sublist
      (List.take_sublist _ _))
  · intro msgs selfId otherId lim b m hm
    simp only [directMessagePage, List.mem_reverse] at hm
    have hsort := List.take_subset _ _ hm
    rw [List.mem_insertionSort] at hsort
    have hpred := (List.mem_filter.mp hsort).2
    rw [Bool.and_eq_true] at hpred
    exact of_decide_eq_true hpred.2
  · intro msgs g lim b m hm
    simp only [groupMessagePage, List.mem_reverse] at hm
    have hsort := List.take_subset _ _ hm
    rw [List.mem_insertionSort] at hsort
    have hpred := (List.mem_filter.mp hsort).2
    rw [Bool.and_eq_true] at hpred
    exact of_decide_eq_true hpred.2

/-- C7 (amended, witness): the default direct page of a two-message
conversation has at most 50 rows, is chronological, and respects the cursor
at id 2; the group page with an explicit limit 1 holds at most one row. -/
theorem pagination_amended_witness :
    (directMessagePage [⟨1, 1, 2, "a", none, 5, false, false⟩,
        ⟨2, 2, 1, "b", none, 9, false, false⟩] 1 2 none none).length ≤ 50 ∧
    (groupMessagePage [⟨1, 3, 1, "a", none, 5, false, false⟩,
        ⟨2, 3, 2, "b", none, 9, false, false⟩] 3 (some 1) none).length ≤ 1 ∧
    (directMessagePage [⟨1, 1, 2, "a", none, 5, false, false⟩,
        ⟨2, 2, 1, "b", none, 9, false, false⟩] 1 2 none none).Pairwise
      (fun a b => a.created_at ≤ b.created_at) ∧
    (∀ m ∈ directMessagePage [⟨1, 1, 2, "a", none, 5, false, false⟩,
        ⟨2, 2, 1, "b", none, 9, false, false⟩] 1 2 none (some 2),
      m.message_id < 2) :=
  ⟨pagination_amended.1 _ 1 2 none,
   pagination_amended.2.2.2.1 _ 3 1 none,
   pagination_amended.2.2.2.2.1 _ 1 2 none none,
   fun m hm => pagination_amended.2.2.2.2.2.2.1 _ 1 2 none 2 m hm⟩

end NeighborNet
